import Mathlib

/-!
Verification of the role-gated session and audit-log core of the
weather_dash dashboard repository, embedded shallowly from the Python
sources (src/app.py, src/auth.py, src/services.py).
-/

set_option maxHeartbeats 1000000

/-! ## A small JSON model (flat objects, as produced by json.dumps on the
audit-event dictionaries: string, boolean and null values). -/

inductive JVal where
  | str (s : String)
  | bool (b : Bool)
  | null
  deriving DecidableEq, Repr

abbrev Event := List (String × JVal)

def lbrace : Char := '\x7b'
def rbrace : Char := '\x7d'

/-- Escaping used by the serializer: quote and backslash are prefixed with a
backslash, every other character is emitted as-is. -/
def escChar (c : Char) : List Char :=
  if c = '"' ∨ c = '\\' then ['\\', c] else [c]

def escStr : List Char → List Char
  | [] => []
  | c :: cs => escChar c ++ escStr cs

def quoteStr (s : List Char) : List Char :=
  '"' :: (escStr s ++ ['"'])

def serVal : JVal → List Char
  | .str s => quoteStr s.data
  | .bool true => ['t', 'r', 'u', 'e']
  | .bool false => ['f', 'a', 'l', 's', 'e']
  | .null => ['n', 'u', 'l', 'l']

def serMember (kv : String × JVal) : List Char :=
  quoteStr kv.1.data ++ [':', ' '] ++ serVal kv.2

def serMembers : Event → List Char
  | [] => []
  | [kv] => serMember kv
  | kv :: rest => serMember kv ++ [',', ' '] ++ serMembers rest

/-- Serialization of a flat dictionary, in the shape json.dumps produces. -/
def serObj (e : Event) : List Char :=
  lbrace :: (serMembers e ++ [rbrace])

def serializeObj (e : Event) : String := String.mk (serObj e)

/-! ### Parser -/

def dropSpaces : List Char → List Char
  | [] => []
  | c :: rest => if c = ' ' then dropSpaces rest else c :: rest

/-- Lexer for the remainder of a string literal (the opening quote already
consumed): a backslash escapes the next character, a bare quote ends the
literal. -/
def lexStr : List Char → Option (List Char × List Char)
  | [] => none
  | c :: rest =>
    if c = '"' then some ([], rest)
    else if c = '\\' then
      match rest with
      | [] => none
      | d :: rest2 =>
        match lexStr rest2 with
        | some (s, r) => some (d :: s, r)
        | none => none
    else
      match lexStr rest with
      | some (s, r) => some (c :: s, r)
      | none => none

def dropLead : List Char → List Char → Option (List Char)
  | [], l => some l
  | _ :: _, [] => none
  | p :: ps, c :: cs => if c = p then dropLead ps cs else none

def parseVal (l : List Char) : Option (JVal × List Char) :=
  match l with
  | [] => none
  | c :: rest =>
    if c = '"' then
      match lexStr rest with
      | some (s, r) => some (.str (String.mk s), r)
      | none => none
    else
      match dropLead ['t', 'r', 'u', 'e'] l with
      | some r => some (.bool true, r)
      | none =>
        match dropLead ['f', 'a', 'l', 's', 'e'] l with
        | some r => some (.bool false, r)
        | none =>
          match dropLead ['n', 'u', 'l', 'l'] l with
          | some r => some (.null, r)
          | none => none

def parseMemberCore (l : List Char) : Option ((String × JVal) × List Char) :=
  match l with
  | c :: rest =>
    if c = '"' then
      match lexStr rest with
      | some (k, r1) =>
        match dropSpaces r1 with
        | d :: r2 =>
          if d = ':' then
            match parseVal (dropSpaces r2) with
            | some (v, r3) => some ((String.mk k, v), r3)
            | none => none
          else none
        | [] => none
      | none => none
    else none
  | [] => none

def parseMember (l : List Char) : Option ((String × JVal) × List Char) :=
  parseMemberCore (dropSpaces l)

def parseMembers : Nat → List Char → Option (Event × List Char)
  | 0, _ => none
  | fuel + 1, l =>
    match parseMember l with
    | none => none
    | some (kv, r) =>
      match dropSpaces r with
      | c :: r2 =>
        if c = ',' then
          match parseMembers fuel r2 with
          | some (e, r3) => some (kv :: e, r3)
          | none => none
        else if c = rbrace then some ([kv], r2)
        else none
      | [] => none

def parseObjChars (l : List Char) : Option Event :=
  match dropSpaces l with
  | c :: rest =>
    if c = lbrace then
      match dropSpaces rest with
      | d :: r2 =>
        if d = rbrace then
          if dropSpaces r2 = [] then some [] else none
        else
          match parseMembers l.length rest with
          | some (e, r3) => if dropSpaces r3 = [] then some e else none
          | none => none
      | [] => none
    else none
  | [] => none

def parseObj (s : String) : Option Event := parseObjChars s.data

/-! ### Round-trip lemmas -/

theorem String.mk_data' (s : String) : String.mk s.data = s := rfl

theorem escChar_quote : escChar '"' = ['\\', '"'] := by decide

theorem escChar_backslash : escChar '\\' = ['\\', '\\'] := by decide

theorem escChar_other (c : Char) (h1 : c ≠ '"') (h2 : c ≠ '\\') :
    escChar c = [c] := by
  simp [escChar, h1, h2]

theorem lexStr_cons_quote (rest : List Char) :
    lexStr ('"' :: rest) = some ([], rest) := by
  rw [lexStr.eq_def]
  simp

theorem lexStr_cons_esc (d : Char) (rest : List Char) :
    lexStr ('\\' :: d :: rest) =
      match lexStr rest with
      | some (s, r) => some (d :: s, r)
      | none => none := by
  simp [lexStr]

theorem lexStr_cons_other (c : Char) (rest : List Char)
    (h1 : c ≠ '"') (h2 : c ≠ '\\') :
    lexStr (c :: rest) =
      match lexStr rest with
      | some (s, r) => some (c :: s, r)
      | none => none := by
  rw [lexStr.eq_def]
  simp [h1, h2]

theorem lexStr_escape (s : List Char) (rest : List Char) :
    lexStr (escStr s ++ '"' :: rest) = some (s, rest) := by
  induction s with
  | nil =>
    simp only [escStr, List.nil_append]
    exact lexStr_cons_quote rest
  | cons c cs ih =>
    rcases eq_or_ne c '"' with h1 | h1
    · subst h1
      rw [escStr, escChar_quote]
      simp only [List.cons_append, List.nil_append]
      rw [lexStr_cons_esc, ih]
    · rcases eq_or_ne c '\\' with h2 | h2
      · subst h2
        rw [escStr, escChar_backslash]
        simp only [List.cons_append, List.nil_append]
        rw [lexStr_cons_esc, ih]
      · rw [escStr, escChar_other c h1 h2]
        simp only [List.cons_append, List.nil_append]
        rw [lexStr_cons_other c _ h1 h2, ih]

theorem dropSpaces_cons_of_ne (c : Char) (l : List Char) (h : ¬ c = ' ') :
    dropSpaces (c :: l) = c :: l := by
  simp [dropSpaces, h]

theorem dropSpaces_space (l : List Char) :
    dropSpaces (' ' :: l) = dropSpaces l := by
  simp [dropSpaces]

theorem dropLead_self (p : List Char) (rest : List Char) :
    dropLead p (p ++ rest) = some rest := by
  induction p with
  | nil => simp [dropLead]
  | cons c cs ih => simp [dropLead, ih]

theorem parseVal_ser (v : JVal) (rest : List Char) :
    parseVal (serVal v ++ rest) = some (v, rest) := by
  cases v with
  | str s =>
    have h : serVal (.str s) ++ rest = '"' :: (escStr s.data ++ '"' :: rest) := by
      simp [serVal, quoteStr]
    rw [h]
    simp [parseVal, lexStr_escape, String.mk_data']
  | bool b =>
    cases b <;> simp [serVal, parseVal, dropLead]
  | null =>
    simp [serVal, parseVal, dropLead]

theorem serVal_ne_space (v : JVal) :
    dropSpaces (serVal v ++ rest) = serVal v ++ rest := by
  cases v with
  | str s => simp [serVal, quoteStr, dropSpaces]
  | bool b => cases b <;> simp [serVal, dropSpaces]
  | null => simp [serVal, dropSpaces]

theorem parseMember_ser (kv : String × JVal) (rest : List Char) :
    parseMember (serMember kv ++ rest) = some (kv, rest) := by
  have h : serMember kv ++ rest =
      '"' :: (escStr kv.1.data ++ '"' :: (':' :: ' ' :: (serVal kv.2 ++ rest))) := by
    simp [serMember, quoteStr]
  rw [parseMember, h]
  rw [dropSpaces_cons_of_ne _ _ (by decide)]
  simp only [parseMemberCore, eq_self_iff_true, if_true]
  rw [lexStr_escape]
  simp only []
  rw [dropSpaces_cons_of_ne _ _ (by decide)]
  simp only [eq_self_iff_true, if_true]
  rw [dropSpaces_space, serVal_ne_space, parseVal_ser]

theorem parseMember_space (l : List Char) :
    parseMember (' ' :: l) = parseMember l := by
  simp [parseMember, dropSpaces_space]

theorem parseMembers_succ (f : Nat) (l : List Char) :
    parseMembers (f + 1) l =
      match parseMember l with
      | none => none
      | some (kv, r) =>
        match dropSpaces r with
        | c :: r2 =>
          if c = ',' then
            match parseMembers f r2 with
            | some (e, r3) => some (kv :: e, r3)
            | none => none
          else if c = rbrace then some ([kv], r2)
          else none
        | [] => none := rfl

theorem parseMembers_space (f : Nat) (l : List Char) :
    parseMembers (f + 1) (' ' :: l) = parseMembers (f + 1) l := by
  rw [parseMembers_succ, parseMembers_succ, parseMember_space]

theorem serMember_length_pos (kv : String × JVal) :
    1 ≤ (serMember kv).length := by
  simp [serMember, quoteStr]

theorem length_le_serMembers (e : Event) :
    e.length ≤ (serMembers e).length := by
  induction e with
  | nil => simp [serMembers]
  | cons kv tail ih =>
    cases tail with
    | nil =>
      show 1 ≤ (serMembers [kv]).length
      simp only [serMembers]
      exact le_trans (serMember_length_pos kv) (le_refl _)
    | cons b l =>
      show (b :: l).length + 1 ≤ (serMembers (kv :: b :: l)).length
      have heq : serMembers (kv :: b :: l) =
          serMember kv ++ [',', ' '] ++ serMembers (b :: l) := rfl
      rw [heq]
      simp only [List.length_append, List.length_cons, List.length_nil]
      simp only [List.length_cons] at ih
      have h1 := serMember_length_pos kv
      omega

theorem parseMembers_ser (e : Event) (hne : e ≠ []) :
    ∀ fuel, e.length ≤ fuel → ∀ rest,
      parseMembers fuel (serMembers e ++ rbrace :: rest) = some (e, rest) := by
  induction e with
  | nil => exact absurd rfl hne
  | cons kv tail ih =>
    intro fuel hf rest
    match fuel, hf with
    | f + 1, hf =>
      cases tail with
      | nil =>
        rw [parseMembers_succ]
        have heq : serMembers [kv] ++ rbrace :: rest = serMember kv ++ rbrace :: rest := rfl
        rw [heq]
        simp only [parseMember_ser]
        rw [dropSpaces_cons_of_ne _ _ (by decide)]
        simp [rbrace]
      | cons b l =>
        have heq : serMembers (kv :: b :: l) ++ rbrace :: rest =
            serMember kv ++ ',' :: ' ' :: (serMembers (b :: l) ++ rbrace :: rest) := by
          show (serMember kv ++ [',', ' '] ++ serMembers (b :: l)) ++ rbrace :: rest = _
          simp
        rw [parseMembers_succ, heq]
        simp only [parseMember_ser]
        rw [dropSpaces_cons_of_ne _ _ (by decide)]
        simp only [eq_self_iff_true, if_true]
        have hlen : (b :: l).length ≤ f := by
          simp only [List.length_cons] at hf ⊢
          omega
        have hf1 : ∃ f', f = f' + 1 := by
          cases f with
          | zero => simp at hlen
          | succ f' => exact ⟨f', rfl⟩
        obtain ⟨f', rfl⟩ := hf1
        rw [parseMembers_space]
        rw [ih (by simp) (f' + 1) hlen rest]

theorem serMembers_cons_head (kv : String × JVal) (z : List Char) :
    serMember kv ++ z =
      '"' :: (escStr kv.1.data ++ '"' :: (':' :: ' ' :: (serVal kv.2 ++ z))) := by
  simp [serMember, quoteStr]

/-- Round-trip: parsing a serialized flat dictionary returns it unchanged. -/
theorem parseObj_serializeObj (e : Event) :
    parseObj (serializeObj e) = some e := by
  show parseObjChars (serObj e) = some e
  cases e with
  | nil =>
    simp [serObj, serMembers, parseObjChars, dropSpaces, lbrace, rbrace]
  | cons kv tail =>
    obtain ⟨Y, hY⟩ : ∃ Y, serMembers (kv :: tail) ++ [rbrace] = '"' :: Y := by
      cases tail with
      | nil =>
        refine ⟨escStr kv.1.data ++ '"' :: (':' :: ' ' :: (serVal kv.2 ++ [rbrace])), ?_⟩
        show serMember kv ++ [rbrace] = _
        rw [serMembers_cons_head]
      | cons b l =>
        refine ⟨escStr kv.1.data ++ '"' ::
          (':' :: ' ' :: (serVal kv.2 ++ (',' :: ' ' :: (serMembers (b :: l) ++ [rbrace])))), ?_⟩
        have h2 : serMembers (kv :: b :: l) ++ [rbrace] =
            serMember kv ++ (',' :: ' ' :: (serMembers (b :: l) ++ [rbrace])) := by
          show (serMember kv ++ [',', ' '] ++ serMembers (b :: l)) ++ [rbrace] = _
          simp
        rw [h2, serMembers_cons_head]
    have hpm : parseMembers ((lbrace :: '"' :: Y).length) ('"' :: Y)
        = some (kv :: tail, []) := by
      rw [← hY]
      refine parseMembers_ser (kv :: tail) (by simp) _ ?_ []
      have h1 := length_le_serMembers (kv :: tail)
      simp only [List.length_cons, List.length_append, List.length_nil] at h1 ⊢
      omega
    rw [serObj, hY]
    unfold parseObjChars
    rw [dropSpaces_cons_of_ne _ _ (by decide)]
    simp only []
    simp only [eq_self_iff_true, if_true]
    rw [dropSpaces_cons_of_ne _ _ (by decide)]
    simp only []
    rw [if_neg (by decide : ¬ (('"' : Char) = rbrace))]
    rw [hpm]
    simp [dropSpaces]

/-! ## Redaction and the secret-shaped key patterns (src/app.py append_jsonl,
line: safe is record minus the keys password, db_pass, admin_password). -/

def redact (record : Event) : Event :=
  record.filter (fun kv =>
    !(kv.1 == "password" || kv.1 == "db_pass" || kv.1 == "admin_password"))

def hasSuffix (suf s : String) : Bool := suf.data.isSuffixOf s.data

/-- The secret-shaped pattern set named by the specification: password,
any key ending in _pass or _password, and db_pass. -/
def isSecretKey (k : String) : Bool :=
  k == "password" || hasSuffix "_pass" k || hasSuffix "_password" k || k == "db_pass"

/-! ## Audit event shapes used by src/app.py. -/

/-- The login event dictionary built in the authenticated branch of app.py. -/
def loginEvent (username display_name login_time station selected_date : String)
    (is_viewer_flag : Bool) : Event :=
  [("username", .str username), ("display_name", .str display_name),
   ("login_time", .str login_time), ("station", .str station),
   ("selected_date", .str selected_date), ("is_viewer", .bool is_viewer_flag)]

/-- Modelled from the spec: app.py never builds a login_failed event (the
failure branch only renders an error), so this shape follows the AuditEvent
model of the specification for action login_failed. -/
def loginFailedEvent (username display_name timestamp : String)
    (role_is_viewer : Bool) : Event :=
  [("username", .str username), ("display_name", .str display_name),
   ("action", .str "login_failed"), ("timestamp", .str timestamp),
   ("role_is_viewer", .bool role_is_viewer)]

/-- The run_ingest admin event of app.py. -/
def runIngestEvent (username display_name time : String) : Event :=
  [("username", .str username), ("display_name", .str display_name),
   ("action", .str "run_ingest"), ("time", .str time)]

/-- The override_station admin event of app.py. -/
def overrideStationEvent (username display_name override_value time : String) : Event :=
  [("username", .str username), ("display_name", .str display_name),
   ("action", .str "override_station"), ("override_value", .str override_value),
   ("time", .str time)]

/-- The run_backfill admin event of app.py. -/
def runBackfillEvent (username display_name time : String) : Event :=
  [("username", .str username), ("display_name", .str display_name),
   ("action", .str "run_backfill"), ("time", .str time)]

/-- The admin-test event of app.py (its action string is secret_test). -/
def adminTestEvent (username display_name : String) (value_present : Bool)
    (time : String) : Event :=
  [("username", .str username), ("display_name", .str display_name),
   ("action", .str "secret_test"), ("value_present", .bool value_present),
   ("time", .str time)]

/-! ## Role resolution of src/auth.py. -/

namespace Auth

/-- auth.py: assign the viewer role to the users colin and halley, otherwise
admin. -/
def get_user_role (username : String) : String :=
  if username ∈ (["colin", "halley"] : List String) then "viewer" else "admin"

def is_viewer (username : String) : Bool := get_user_role username == "viewer"

def is_admin (username : String) : Bool := get_user_role username == "admin"

end Auth

/-! ## Credentials, login and role gating of src/app.py. -/

structure UserData where
  email : String
  name : String
  password : String
  deriving DecidableEq, Repr

/-- The six principal secrets of app.py (admin_username, admin_email,
admin_password, viewer_username, viewer_email, viewer_password). -/
structure AppConfig where
  admin_username : String
  admin_email : String
  admin_password : String
  viewer_username : String
  viewer_email : String
  viewer_password : String
  deriving DecidableEq, Repr

/-- Python dict insertion: replace the value of an existing key, otherwise
append the binding at the end. -/
def insertDict (tbl : List (String × UserData)) (k : String) (v : UserData) :
    List (String × UserData) :=
  if tbl.any (fun kv => kv.1 == k) then
    tbl.map (fun kv => if kv.1 == k then (k, v) else kv)
  else tbl ++ [(k, v)]

/-- The credentials dictionary literal of app.py: an Admin entry under
admin_username and a Viewer entry under viewer_username. -/
def credentialsTable (c : AppConfig) : List (String × UserData) :=
  insertDict
    (insertDict [] c.admin_username ⟨c.admin_email, "Admin", c.admin_password⟩)
    c.viewer_username ⟨c.viewer_email, "Viewer", c.viewer_password⟩

def lookupDict (tbl : List (String × UserData)) (k : String) : Option UserData :=
  match tbl with
  | [] => none
  | kv :: rest => if kv.1 = k then some kv.2 else lookupDict rest k

/-- Outcome of the fallback login of app.py: on a match the triple
(display name, True, username key), otherwise (None, False, None). -/
inductive LoginResult where
  | success (display_name : String) (user_key : String)
  | failure
  deriving DecidableEq, Repr

/-- The fallback credential check of app.py: scan the credentials dict and
return the display name and key on an exact username and password match. -/
def authenticate (tbl : List (String × UserData)) (u p : String) : LoginResult :=
  match tbl with
  | [] => .failure
  | kv :: rest =>
    if u = kv.1 ∧ p = kv.2.password then .success kv.2.name kv.1
    else authenticate rest u p

namespace App

/-- app.py role utility: a session key is a viewer exactly when it equals the
configured viewer_username. -/
def is_viewer (viewer_username username_key : String) : Bool :=
  username_key == viewer_username

end App

inductive Role where
  | admin
  | viewer
  deriving DecidableEq, Repr

/-- The role the app.py UI derives for a logged-in key: viewer when
is_viewer holds, otherwise the admin controls are shown. -/
def sessionRole (viewer_username user_key : String) : Role :=
  if App.is_viewer viewer_username user_key then .viewer else .admin

/-! ## Startup check of src/app.py (REQUIRED_SECRETS, st.stop on missing). -/

def REQUIRED_SECRETS : List String :=
  ["admin_username", "admin_email", "admin_password",
   "viewer_username", "viewer_email", "viewer_password"]

def missingKeys (secrets : String → Option String) : List String :=
  REQUIRED_SECRETS.filter (fun k => (secrets k).isNone)

inductive Startup where
  | halted (missing : List String)
  | serving (creds : List (String × UserData))

/-- app.py module flow: compute the missing required secrets, stop before
rendering anything when the list is nonempty, otherwise build the
credentials dictionary from exactly the configured secret values. -/
def secretsCredentials (secrets : String → Option String) :
    List (String × UserData) :=
  insertDict
    (insertDict [] ((secrets "admin_username").getD "")
      ⟨(secrets "admin_email").getD "", "Admin", (secrets "admin_password").getD ""⟩)
    ((secrets "viewer_username").getD "")
    ⟨(secrets "viewer_email").getD "", "Viewer", (secrets "viewer_password").getD ""⟩

def startup (secrets : String → Option String) : Startup :=
  if missingKeys secrets = [] then .serving (secretsCredentials secrets)
  else .halted (missingKeys secrets)

/-! ## File sink of src/app.py (append_jsonl): world, fault injection and
the translated control flow with its try and except blocks. -/

inductive IOErr where
  | ioError
  deriving DecidableEq, Repr

structure World where
  dirs : List String
  files : List (String × List String)
  deriving DecidableEq, Repr

def emptyWorld : World := ⟨[], []⟩

/-- Failure injection for the primitive operations append_jsonl performs:
the two makedirs calls, the two file appends and the sidebar warning. -/
structure FileFaults where
  mkdirFirst : Bool
  mkdirSecond : Bool
  writeFirst : Bool
  writeSecond : Bool
  warnFails : Bool
  deriving DecidableEq, Repr

def noFaults : FileFaults := ⟨false, false, false, false, false⟩

/-- os.path.dirname for forward-slash paths: everything before the last
slash, empty when there is none. -/
def dirname (p : String) : String :=
  match p.data.reverse.dropWhile (fun c => c ≠ '/') with
  | [] => ""
  | _ :: rest => String.mk rest.reverse

/-- app.py: os.path.dirname(path) or the current directory. -/
def dirnameOrDot (p : String) : String :=
  if dirname p = "" then "." else dirname p

def mkDir (d : String) (w : World) : World :=
  if w.dirs.contains d then w else { w with dirs := w.dirs ++ [d] }

def addLine (files : List (String × List String)) (p line : String) :
    List (String × List String) :=
  if files.any (fun f => f.1 == p) then
    files.map (fun f => if f.1 == p then (f.1, f.2 ++ [line]) else f)
  else files ++ [(p, [line])]

def lookupFile (files : List (String × List String)) (p : String) :
    Option (List String) :=
  match files with
  | [] => none
  | f :: rest => if f.1 = p then some f.2 else lookupFile rest p

/-- The warning branch of append_jsonl: the sidebar warnings sit in a
nested try whose except swallows their own failure. -/
def afterWriteFailure (f : FileFaults) (w : World) :
    Except IOErr (World × Bool) :=
  if f.warnFails then .ok (w, false) else .ok (w, true)

/-- append_jsonl of app.py. First try block: makedirs on dirname(path) or
the dot directory, then makedirs on dirname(LOG_PATH) when nonempty, any
failure passed over. It then redacts the record, serializes the unredacted
event, and in a second try block appends the redacted line to path and the
event line to LOG_PATH; on failure it warns in the sidebar instead of
raising. The returned Bool records whether a warning was shown. -/
def appendJsonl (f : FileFaults) (logPath path : String) (record : Event)
    (w0 : World) : Except IOErr (World × Bool) :=
  let w1 :=
    if f.mkdirFirst then w0
    else
      let wa := mkDir (dirnameOrDot path) w0
      if dirname logPath = "" then wa
      else if f.mkdirSecond then wa
      else mkDir (dirname logPath) wa
  let safe := redact record
  let eventLine := serializeObj record
  if f.writeFirst then afterWriteFailure f w1
  else
    let w2 := { w1 with files := addLine w1.files path (serializeObj safe) }
    if f.writeSecond then afterWriteFailure f w2
    else .ok ({ w2 with files := addLine w2.files logPath eventLine }, false)

/-! ## Datastore sink of src/app.py (try_db_log). -/

/-- Connection parameters of a psycopg2.connect call. -/
structure ConnParams where
  host : String
  port : Nat
  dbname : String
  user : String
  password : String
  connect_timeout : Nat
  deriving DecidableEq, Repr

/-- The optional datastore connection secrets: db_user, db_pass plus the
configured db_host, db_port, db_name (with their get_secret defaults). -/
structure DbConfig where
  db_user : String
  db_pass : String
  db_host : String
  db_port : Nat
  db_name : String
  deriving DecidableEq, Repr

/-- Failure injection for try_db_log: the psycopg2 import, the two connect
calls, the CREATE TABLE and the INSERT. -/
structure DbFaults where
  importFails : Bool
  connectConfiguredFails : Bool
  connectLocalFails : Bool
  createTableFails : Bool
  insertFails : Bool
  deriving DecidableEq, Repr

def dbNoFaults : DbFaults := ⟨false, false, false, false, false⟩

/-- The first psycopg2.connect call of try_db_log: dbname=DB_NAME,
user=DB_USER, password=DB_PASS, host=DB_HOST, port=DB_PORT,
connect_timeout=2. -/
def configuredConn (c : DbConfig) : ConnParams :=
  ⟨c.db_host, c.db_port, c.db_name, c.db_user, c.db_pass, 2⟩

/-- The second psycopg2.connect call of try_db_log: dbname postgres, host
localhost, port 5432, connect_timeout 2, with the configured user and
password. -/
def localConn (c : DbConfig) : ConnParams :=
  ⟨"localhost", 5432, "postgres", c.db_user, c.db_pass, 2⟩

/-- The row the INSERT binds from the event dictionary. -/
def insertRow (e : Event) : List (Option JVal) :=
  [e.lookup "username", e.lookup "display_name", e.lookup "login_time",
   e.lookup "station", e.lookup "selected_date", e.lookup "is_viewer"]

/-- What a run of try_db_log did: the connection attempts in order, and the
connection and row of the INSERT when it was reached. -/
structure DbTrace where
  attempts : List ConnParams
  inserted : Option (ConnParams × List (Option JVal))
  deriving DecidableEq, Repr

/-- try_db_log of app.py: return immediately when db_user or db_pass is
empty; otherwise, inside one try whose except swallows everything, import
psycopg2, connect with the configured parameters, connect again to
localhost/postgres, create the table if absent, and insert the event row on
the localhost connection. -/
def tryDbLog (f : DbFaults) (c : DbConfig) (e : Event) : Except IOErr DbTrace :=
  if c.db_user = "" ∨ c.db_pass = "" then .ok ⟨[], none⟩
  else if f.importFails then .ok ⟨[], none⟩
  else if f.connectConfiguredFails then .ok ⟨[configuredConn c], none⟩
  else if f.connectLocalFails then .ok ⟨[configuredConn c, localConn c], none⟩
  else if f.createTableFails then .ok ⟨[configuredConn c, localConn c], none⟩
  else if f.insertFails then .ok ⟨[configuredConn c, localConn c], none⟩
  else .ok ⟨[configuredConn c, localConn c], some (localConn c, insertRow e)⟩

/-! ## src/services.py: Services construction. -/

namespace Services

structure Engine where
  url : String
  pool_pre_ping : Bool
  deriving DecidableEq, Repr

/-- Services constructor: KeyError on a missing database url becomes a
RuntimeError, an empty url raises RuntimeError, otherwise create_engine on
exactly the configured url with pool_pre_ping. -/
def servicesInit (dburl : Option String) : Except String Engine :=
  match dburl with
  | none => .error "Database URL configuration missing in secrets.toml"
  | some url =>
    if url = "" then .error "Database URL value is empty in secrets.toml."
    else .ok ⟨url, true⟩

end Services

/-! ## Claim theorems -/

/-- Claim C1 as stated is false on the code: a username absent from any
principal table (here mallory, with the empty table) resolves to is_viewer
false and is_admin true, because auth.py assigns viewer only to colin and
halley and app.py compares only against viewer_username. -/
theorem claim_C1_counterexample :
    ¬ (∀ (tbl : List String) (u : String), u ∉ tbl →
        Auth.is_viewer u = true ∧ Auth.is_admin u = false) := by
  intro h
  have hm := (h [] "mallory" (by simp)).1
  exact absurd hm (by decide)

/-- Claim C1 amended: role resolution for a username outside the hardcoded
viewer list (and different from the configured viewer_username) defaults to
admin, the least restrictive role: is_viewer is false and is_admin true. -/
theorem claim_C1 :
    (∀ u : String, u ∉ (["colin", "halley"] : List String) →
        Auth.is_viewer u = false ∧ Auth.is_admin u = true) ∧
    (∀ viewer_username u : String, u ≠ viewer_username →
        App.is_viewer viewer_username u = false) := by
  constructor
  · intro u hu
    have hr : Auth.get_user_role u = "admin" := by
      simp [Auth.get_user_role, hu]
    constructor
    · unfold Auth.is_viewer
      rw [hr]
      decide
    · unfold Auth.is_admin
      rw [hr]
      decide
  · intro vu u h
    simp [App.is_viewer, h]

/-- Witness for the amended claim C1 at the concrete unknown user mallory. -/
theorem claim_C1_witness :
    (Auth.is_viewer "mallory" = false ∧ Auth.is_admin "mallory" = true) ∧
    App.is_viewer "bob" "mallory" = false :=
  ⟨claim_C1.1 "mallory" (by decide), claim_C1.2 "bob" "mallory" (by decide)⟩

/-- Claim C4: a required principal secret that is absent makes startup halt
before anything is served, and whenever the app serves, every required
secret is present and the credentials come from exactly the configured
values, with no default fallback. -/
theorem claim_C4 :
    (∀ (secrets : String → Option String) (k : String),
        k ∈ REQUIRED_SECRETS → secrets k = none →
        startup secrets = .halted (missingKeys secrets) ∧
        missingKeys secrets ≠ []) ∧
    (∀ (secrets : String → Option String) (creds : List (String × UserData)),
        startup secrets = .serving creds →
        (∀ k ∈ REQUIRED_SECRETS, secrets k ≠ none) ∧
        creds = secretsCredentials secrets) := by
  constructor
  · intro secrets k hk hnone
    have hmem : k ∈ missingKeys secrets := by
      refine List.mem_filter.2 ⟨hk, ?_⟩
      simp [hnone]
    have hne : missingKeys secrets ≠ [] := List.ne_nil_of_mem hmem
    exact ⟨by simp [startup, hne], hne⟩
  · intro secrets creds hserve
    by_cases hm : missingKeys secrets = []
    · constructor
      · intro k hk hkn
        have : k ∈ missingKeys secrets := by
          refine List.mem_filter.2 ⟨hk, ?_⟩
          simp [hkn]
        rw [hm] at this
        simp at this
      · have := hserve
        simp [startup, hm] at this
        exact this.symm
    · exfalso
      simp [startup, hm] at hserve

def missingSecretsExample : String → Option String :=
  fun k => if k == "admin_password" then none else some "configured"

/-- Witness for claim C4: with admin_password absent the app halts. -/
theorem claim_C4_witness :
    startup missingSecretsExample = .halted (missingKeys missingSecretsExample) ∧
    missingKeys missingSecretsExample ≠ [] :=
  claim_C4.1 missingSecretsExample "admin_password" (by decide) (by decide)

/-- Claim C7: try_db_log never escapes an exception to its caller, and when
db_user or db_pass is empty it returns at once with no connection attempt. -/
theorem claim_C7 (f : DbFaults) (c : DbConfig) (e : Event) :
    (∃ t, tryDbLog f c e = .ok t) ∧
    (c.db_user = "" ∨ c.db_pass = "" → tryDbLog f c e = .ok ⟨[], none⟩) := by
  constructor
  · unfold tryDbLog
    split_ifs <;> exact ⟨_, rfl⟩
  · intro h
    simp [tryDbLog, h]

/-- Witness for claim C7: absent datastore credentials give an immediate
return with an empty attempt trace. -/
theorem claim_C7_witness :
    tryDbLog dbNoFaults ⟨"", "", "localhost", 5432, ""⟩ [] = .ok ⟨[], none⟩ :=
  (claim_C7 dbNoFaults ⟨"", "", "localhost", 5432, ""⟩ []).2 (Or.inl rfl)

namespace Services

/-- Claim C9: constructing Services errors out exactly when the database url
is missing or empty, and otherwise builds the engine from that url. -/
theorem claim_C9 :
    (∀ d : Option String, (d = none ∨ d = some "") →
        ∃ msg, servicesInit d = .error msg) ∧
    (∀ url : String, url ≠ "" → servicesInit (some url) = .ok ⟨url, true⟩) := by
  constructor
  · rintro d (rfl | rfl)
    · exact ⟨_, rfl⟩
    · exact ⟨"Database URL value is empty in secrets.toml.", by simp [servicesInit]⟩
  · intro url h
    simp [servicesInit, h]

/-- Witness for claim C9 at a missing url and at a concrete nonempty url. -/
theorem claim_C9_witness :
    (∃ msg, servicesInit none = .error msg) ∧
    servicesInit (some "postgresql://db") = .ok ⟨"postgresql://db", true⟩ :=
  ⟨claim_C9.1 none (Or.inl rfl), claim_C9.2 "postgresql://db" (by decide)⟩

end Services

theorem authenticate_not_mem (tbl : List (String × UserData)) (u p : String)
    (h : ∀ kv ∈ tbl, kv.1 ≠ u) : authenticate tbl u p = .failure := by
  induction tbl with
  | nil => rfl
  | cons kv rest ih =>
    have h1 : kv.1 ≠ u := h kv (by simp)
    simp only [authenticate]
    rw [if_neg]
    · exact ih (fun kv' hm => h kv' (by simp [hm]))
    · rintro ⟨h2, _⟩
      exact h1 h2.symm

theorem credentialsTable_eq_of_ne (c : AppConfig)
    (hne : c.admin_username ≠ c.viewer_username) :
    credentialsTable c =
      [(c.admin_username, ⟨c.admin_email, "Admin", c.admin_password⟩),
       (c.viewer_username, ⟨c.viewer_email, "Viewer", c.viewer_password⟩)] := by
  have hb : (c.admin_username == c.viewer_username) = false := by
    simp [hne]
  simp [credentialsTable, insertDict, hb]

theorem credentialsTable_eq_of_eq (c : AppConfig)
    (heq : c.admin_username = c.viewer_username) :
    credentialsTable c =
      [(c.viewer_username, ⟨c.viewer_email, "Viewer", c.viewer_password⟩)] := by
  have hb : (c.admin_username == c.viewer_username) = true := by
    simp [heq]
  simp [credentialsTable, insertDict, hb, heq]

/-- Claim C2: each configured principal authenticates with its own password
into a session carrying its own role, and fails with the generic failure on
any other password (usernames distinct, as the Principal model requires). -/
theorem claim_C2 (c : AppConfig) (hne : c.admin_username ≠ c.viewer_username) :
    (authenticate (credentialsTable c) c.admin_username c.admin_password
        = .success "Admin" c.admin_username ∧
      sessionRole c.viewer_username c.admin_username = .admin) ∧
    (authenticate (credentialsTable c) c.viewer_username c.viewer_password
        = .success "Viewer" c.viewer_username ∧
      sessionRole c.viewer_username c.viewer_username = .viewer) ∧
    (∀ w, w ≠ c.admin_password →
      authenticate (credentialsTable c) c.admin_username w = .failure) ∧
    (∀ w, w ≠ c.viewer_password →
      authenticate (credentialsTable c) c.viewer_username w = .failure) := by
  rw [credentialsTable_eq_of_ne c hne]
  refine ⟨⟨?_, ?_⟩, ⟨?_, ?_⟩, ?_, ?_⟩
  · simp [authenticate]
  · simp [sessionRole, App.is_viewer, hne]
  · have hva : ¬ (c.viewer_username = c.admin_username ∧
        c.viewer_password = c.admin_password) := by
      rintro ⟨h1, _⟩
      exact hne h1.symm
    simp only [authenticate]
    rw [if_neg hva]
    simp [authenticate]
  · simp [sessionRole, App.is_viewer]
  · intro w hw
    simp only [authenticate]
    rw [if_neg (by rintro ⟨_, h2⟩; exact hw h2)]
    rw [if_neg (by rintro ⟨h1, _⟩; exact hne h1)]
  · intro w hw
    simp only [authenticate]
    rw [if_neg (by rintro ⟨h1, _⟩; exact hne h1.symm)]
    rw [if_neg (by rintro ⟨_, h2⟩; exact hw h2)]

def scenarioAConfig : AppConfig :=
  ⟨"alice", "alice@example.com", "p1", "bob", "bob@example.com", "p2"⟩

/-- Witness for claim C2: scenario A with alice/p1 as admin and bob/p2 as
viewer; alice authenticates into the Admin session and bob fails with a
wrong password. -/
theorem claim_C2_witness :
    (authenticate (credentialsTable scenarioAConfig) "alice" "p1"
        = .success "Admin" "alice" ∧
      sessionRole "bob" "alice" = .admin) ∧
    authenticate (credentialsTable scenarioAConfig) "bob" "wrong" = .failure :=
  ⟨(claim_C2 scenarioAConfig (by decide)).1,
    (claim_C2 scenarioAConfig (by decide)).2.2.2 "wrong" (by decide)⟩

theorem authenticate_wrong_password (c : AppConfig) (u2 p2 : String)
    (v : UserData) (h2 : lookupDict (credentialsTable c) u2 = some v)
    (hw : p2 ≠ v.password) :
    authenticate (credentialsTable c) u2 p2 = .failure := by
  by_cases hav : c.admin_username = c.viewer_username
  · rw [credentialsTable_eq_of_eq c hav] at h2 ⊢
    by_cases hu : c.viewer_username = u2
    · have hv : v = ⟨c.viewer_email, "Viewer", c.viewer_password⟩ := by
        simp [lookupDict, hu] at h2
        exact h2.symm
      simp only [authenticate]
      rw [if_neg (by rintro ⟨_, hp⟩; exact hw (by rw [hv]; exact hp))]
    · simp [lookupDict, hu] at h2
  · rw [credentialsTable_eq_of_ne c hav] at h2 ⊢
    by_cases hu1 : c.admin_username = u2
    · have hv : v = ⟨c.admin_email, "Admin", c.admin_password⟩ := by
        simp [lookupDict, hu1] at h2
        exact h2.symm
      simp only [authenticate]
      rw [if_neg (by rintro ⟨_, hp⟩; exact hw (by rw [hv]; exact hp))]
      rw [if_neg (by rintro ⟨h1, _⟩; exact hav (hu1.trans h1))]
    · by_cases hu2 : c.viewer_username = u2
      · have hv : v = ⟨c.viewer_email, "Viewer", c.viewer_password⟩ := by
          simp [lookupDict, hu1, hu2] at h2
          exact h2.symm
        simp only [authenticate]
        rw [if_neg (by rintro ⟨h1, _⟩; exact hu1 h1.symm)]
        rw [if_neg (by rintro ⟨_, hp⟩; exact hw (by rw [hv]; exact hp))]
      · simp [lookupDict, hu1, hu2] at h2

/-- Claim C6: an unknown username fails with exactly the same failure value
as a known username with a wrong password: no enumeration signal. -/
theorem claim_C6 (c : AppConfig) (u p u2 p2 : String) (v : UserData)
    (hu : ∀ kv ∈ credentialsTable c, kv.1 ≠ u)
    (h2 : lookupDict (credentialsTable c) u2 = some v)
    (hw : p2 ≠ v.password) :
    authenticate (credentialsTable c) u p = .failure ∧
    authenticate (credentialsTable c) u2 p2 = .failure ∧
    authenticate (credentialsTable c) u p
      = authenticate (credentialsTable c) u2 p2 := by
  have ha := authenticate_not_mem (credentialsTable c) u p hu
  have hb := authenticate_wrong_password c u2 p2 v h2 hw
  exact ⟨ha, hb, ha.trans hb.symm⟩

/-- Witness for claim C6: mallory (unknown) and alice (wrong password) both
fail identically against the scenario A table. -/
theorem claim_C6_witness :
    authenticate (credentialsTable scenarioAConfig) "mallory" "x" = .failure ∧
    authenticate (credentialsTable scenarioAConfig) "alice" "wrong" = .failure ∧
    authenticate (credentialsTable scenarioAConfig) "mallory" "x"
      = authenticate (credentialsTable scenarioAConfig) "alice" "wrong" :=
  claim_C6 scenarioAConfig "mallory" "x" "alice" "wrong"
    ⟨"alice@example.com", "Admin", "p1"⟩ (by decide) (by decide) (by decide)

def warnedOf : Except IOErr (World × Bool) → Option Bool
  | .ok (_, b) => some b
  | .error _ => none

/-- Claim C5 as stated is false on the code: a directory-creation failure
alone (writes succeeding) is passed over silently, so no warning is
reported even though an I/O failure occurred. -/
theorem claim_C5_counterexample :
    ¬ (∀ (f : FileFaults) (logPath path : String) (record : Event) (w : World),
        (f.mkdirFirst || f.mkdirSecond || f.writeFirst || f.writeSecond) = true →
        ∃ w', appendJsonl f logPath path record w = .ok (w', true)) := by
  intro h
  obtain ⟨w', hw⟩ := h ⟨true, false, false, false, false⟩ "login_events.jsonl"
      "login_events.jsonl" [] emptyWorld (by decide)
  have hc := congrArg warnedOf hw
  have he : warnedOf (appendJsonl ⟨true, false, false, false, false⟩
      "login_events.jsonl" "login_events.jsonl" [] emptyWorld) = some false := by
    decide
  rw [he] at hc
  simp [warnedOf] at hc

/-- Claim C5 amended: append_jsonl never raises to its caller for any fault
combination; a failing file write (with a working warning channel) reports
the non-sensitive sidebar warning and still returns normally; directory
creation failures are swallowed silently. -/
theorem claim_C5 (f : FileFaults) (logPath path : String) (record : Event)
    (w0 : World) :
    (∃ r, appendJsonl f logPath path record w0 = .ok r) ∧
    ((f.writeFirst = true ∨ f.writeSecond = true) → f.warnFails = false →
      ∃ w, appendJsonl f logPath path record w0 = .ok (w, true)) := by
  constructor
  · unfold appendJsonl afterWriteFailure
    split_ifs <;> exact ⟨_, rfl⟩
  · intro hw hwarn
    by_cases h1 : f.writeFirst = true
    · simp only [appendJsonl, afterWriteFailure, h1, hwarn, Bool.false_eq_true,
        if_false, if_true]
      exact ⟨_, rfl⟩
    · rcases hw with hw | hw
      · exact absurd hw h1
      · simp only [appendJsonl, afterWriteFailure, h1, hw, hwarn,
          Bool.false_eq_true, if_false, if_true]
        exact ⟨_, rfl⟩

/-- Witness for the amended claim C5: a failing first write still returns
normally and reports the warning. -/
theorem claim_C5_witness :
    ∃ w, appendJsonl ⟨false, false, true, false, false⟩ "login_events.jsonl"
        "login_events.jsonl" [] emptyWorld = .ok (w, true) :=
  (claim_C5 ⟨false, false, true, false, false⟩ "login_events.jsonl"
      "login_events.jsonl" [] emptyWorld).2 (Or.inl rfl) rfl

def logsPath : String := "logs/login_events.jsonl"

def sinkLineCount (r : Except IOErr (World × Bool)) (p : String) : Option Nat :=
  match r with
  | .ok (w, _) => (lookupFile w.files p).map List.length
  | .error _ => none

/-- Claim C8 as stated is false on the code: logging one login event into a
fresh world leaves the sink file with two lines, not one, because
append_jsonl writes the redacted record to path and the raw event line to
LOG_PATH, which are the same file at the call site. -/
theorem claim_C8_counterexample :
    sinkLineCount
      (appendJsonl noFaults logsPath logsPath
        (loginEvent "alice" "Admin" "2025-10-27T00:00:00+00:00" "KDTW"
          "2025-10-27" false)
        emptyWorld)
      logsPath = some 2 ∧ (2 : Nat) ≠ 1 := by
  constructor
  · decide
  · decide

theorem redact_loginEvent (a b c d e : String) (f : Bool) :
    redact (loginEvent a b c d e f) = loginEvent a b c d e f := rfl

/-- Claim C8 amended: with the sink path absent, logging one event creates
the parent directory and the file, which then holds exactly two lines (the
redacted record and the raw event line); each line is valid JSON and
contains no password key. -/
theorem claim_C8 (username dn lt st sd : String) (iv : Bool) :
    ∃ w, appendJsonl noFaults logsPath logsPath
          (loginEvent username dn lt st sd iv) emptyWorld = .ok (w, false) ∧
      w.dirs = ["logs"] ∧
      lookupFile w.files logsPath =
        some [serializeObj (redact (loginEvent username dn lt st sd iv)),
              serializeObj (loginEvent username dn lt st sd iv)] ∧
      (∀ line ∈ [serializeObj (redact (loginEvent username dn lt st sd iv)),
                 serializeObj (loginEvent username dn lt st sd iv)],
        ∃ parsed, parseObj line = some parsed ∧
          ∀ kv ∈ parsed, kv.1 ≠ "password") := by
  refine ⟨⟨["logs"],
      [(logsPath, [serializeObj (redact (loginEvent username dn lt st sd iv)),
        serializeObj (loginEvent username dn lt st sd iv)])]⟩, ?_, rfl, ?_, ?_⟩
  · rfl
  · simp [lookupFile]
  · intro line hline
    simp only [List.mem_cons, List.not_mem_nil, or_false] at hline
    rcases hline with rfl | rfl
    · refine ⟨_, parseObj_serializeObj _, ?_⟩
      rw [redact_loginEvent]
      intro kv hkv
      simp only [loginEvent, List.mem_cons, List.not_mem_nil, or_false] at hkv
      rcases hkv with rfl | rfl | rfl | rfl | rfl | rfl <;> simp only [] <;> decide
    · refine ⟨_, parseObj_serializeObj _, ?_⟩
      intro kv hkv
      simp only [loginEvent, List.mem_cons, List.not_mem_nil, or_false] at hkv
      rcases hkv with rfl | rfl | rfl | rfl | rfl | rfl <;> simp only [] <;> decide

def exampleDbConfig : DbConfig :=
  ⟨"loguser", "logpass", "db.example.com", 6543, "weatherdb"⟩

/-- Claim C10 as stated is false on the code: with credentials configured,
try_db_log first connects with the configured db_host, db_port and db_name
(here db.example.com:6543/weatherdb), so the configured connection
parameters are used. -/
theorem claim_C10_counterexample :
    ¬ (∀ (f : DbFaults) (c : DbConfig) (e : Event) (t : DbTrace),
        c.db_user ≠ "" → c.db_pass ≠ "" → tryDbLog f c e = .ok t →
        ∀ p ∈ t.attempts, p.host = "localhost" ∧ p.port = 5432 ∧
          p.dbname = "postgres" ∧ p.connect_timeout = 2) := by
  intro h
  have ht : tryDbLog dbNoFaults exampleDbConfig [] =
      .ok ⟨[configuredConn exampleDbConfig, localConn exampleDbConfig],
        some (localConn exampleDbConfig, insertRow [])⟩ := by
    rw [tryDbLog]
    rw [if_neg (by decide), if_neg (by decide), if_neg (by decide),
      if_neg (by decide), if_neg (by decide), if_neg (by decide)]
  have hp := h dbNoFaults exampleDbConfig [] _ (by decide) (by decide) ht
      (configuredConn exampleDbConfig) (by simp)
  exact absurd hp.1 (by decide)

/-- Claim C10 amended: when db_user and db_pass are configured and the
driver imports, the first connection attempt uses the configured db_host,
db_port and db_name; only when it succeeds is a second connection made to
localhost 5432 postgres with the 2-second timeout, and the insert, when
reached, runs on that second connection. -/
theorem claim_C10 (f : DbFaults) (c : DbConfig) (e : Event)
    (hu : c.db_user ≠ "") (hp : c.db_pass ≠ "") (hi : f.importFails = false) :
    ∃ t, tryDbLog f c e = .ok t ∧
      t.attempts.head? = some (configuredConn c) ∧
      (f.connectConfiguredFails = false → f.connectLocalFails = false →
        t.attempts = [configuredConn c, localConn c]) ∧
      (∀ pr, t.inserted = some pr → pr.1 = localConn c) ∧
      localConn c = ⟨"localhost", 5432, "postgres", c.db_user, c.db_pass, 2⟩ := by
  have h0 : ¬ (c.db_user = "" ∨ c.db_pass = "") := by
    rintro (h | h)
    · exact hu h
    · exact hp h
  unfold tryDbLog
  rw [if_neg h0, hi]
  cases hb1 : f.connectConfiguredFails with
  | true =>
    simp only [Bool.false_eq_true, if_false, eq_self_iff_true, if_true]
    exact ⟨_, rfl, rfl, fun hfc _ => Bool.noConfusion hfc,
      fun pr hpr => Option.noConfusion hpr, rfl⟩
  | false =>
    cases hb2 : f.connectLocalFails with
    | true =>
      simp only [Bool.false_eq_true, if_false, eq_self_iff_true, if_true]
      exact ⟨_, rfl, rfl, fun _ hlc => Bool.noConfusion hlc,
        fun pr hpr => Option.noConfusion hpr, rfl⟩
    | false =>
      cases hb3 : f.createTableFails with
      | true =>
        simp only [Bool.false_eq_true, if_false, eq_self_iff_true, if_true]
        exact ⟨_, rfl, rfl, fun _ _ => rfl,
          fun pr hpr => Option.noConfusion hpr, rfl⟩
      | false =>
        cases hb4 : f.insertFails with
        | true =>
          simp only [Bool.false_eq_true, if_false, eq_self_iff_true, if_true]
          exact ⟨_, rfl, rfl, fun _ _ => rfl,
            fun pr hpr => Option.noConfusion hpr, rfl⟩
        | false =>
          simp only [Bool.false_eq_true, if_false, eq_self_iff_true, if_true]
          exact ⟨_, rfl, rfl, fun _ _ => rfl,
            fun pr hpr => by rw [← Option.some.inj hpr], rfl⟩

/-- Witness for the amended claim C10 at a concrete configured datastore. -/
theorem claim_C10_witness :
    ∃ t, tryDbLog dbNoFaults exampleDbConfig [] = .ok t ∧
      t.attempts.head? = some (configuredConn exampleDbConfig) ∧
      (dbNoFaults.connectConfiguredFails = false →
        dbNoFaults.connectLocalFails = false →
        t.attempts = [configuredConn exampleDbConfig, localConn exampleDbConfig]) ∧
      (∀ pr, t.inserted = some pr → pr.1 = localConn exampleDbConfig) ∧
      localConn exampleDbConfig =
        ⟨"localhost", 5432, "postgres", "loguser", "logpass", 2⟩ :=
  claim_C10 dbNoFaults exampleDbConfig [] (by decide) (by decide) rfl

theorem redact_loginFailedEvent (a b c : String) (d : Bool) :
    redact (loginFailedEvent a b c d) = loginFailedEvent a b c d := rfl

theorem redact_runIngestEvent (a b c : String) :
    redact (runIngestEvent a b c) = runIngestEvent a b c := rfl

theorem redact_overrideStationEvent (a b c d : String) :
    redact (overrideStationEvent a b c d) = overrideStationEvent a b c d := rfl

theorem redact_runBackfillEvent (a b c : String) :
    redact (runBackfillEvent a b c) = runBackfillEvent a b c := rfl

theorem redact_adminTestEvent (a b : String) (c : Bool) (d : String) :
    redact (adminTestEvent a b c d) = adminTestEvent a b c d := rfl

/-- Claim C3: for every audit event shape used in the system, redacting
then serializing then parsing yields an object none of whose keys matches
the secret-shaped pattern set. -/
theorem claim_C3 (u dn lt st sd t ov : String) (iv vp rv : Bool) :
    ∀ e ∈ [loginEvent u dn lt st sd iv,
           loginFailedEvent u dn t rv,
           runIngestEvent u dn t,
           overrideStationEvent u dn ov t,
           runBackfillEvent u dn t,
           adminTestEvent u dn vp t],
      ∃ parsed, parseObj (serializeObj (redact e)) = some parsed ∧
        ∀ kv ∈ parsed, isSecretKey kv.1 = false := by
  intro e he
  refine ⟨redact e, parseObj_serializeObj _, ?_⟩
  simp only [List.mem_cons, List.not_mem_nil, or_false] at he
  rcases he with rfl | rfl | rfl | rfl | rfl | rfl
  · rw [redact_loginEvent]
    intro kv hkv
    simp only [loginEvent, List.mem_cons, List.not_mem_nil, or_false] at hkv
    rcases hkv with rfl | rfl | rfl | rfl | rfl | rfl <;> simp only [] <;> decide
  · rw [redact_loginFailedEvent]
    intro kv hkv
    simp only [loginFailedEvent, List.mem_cons, List.not_mem_nil, or_false] at hkv
    rcases hkv with rfl | rfl | rfl | rfl | rfl <;> simp only [] <;> decide
  · rw [redact_runIngestEvent]
    intro kv hkv
    simp only [runIngestEvent, List.mem_cons, List.not_mem_nil, or_false] at hkv
    rcases hkv with rfl | rfl | rfl | rfl <;> simp only [] <;> decide
  · rw [redact_overrideStationEvent]
    intro kv hkv
    simp only [overrideStationEvent, List.mem_cons, List.not_mem_nil, or_false] at hkv
    rcases hkv with rfl | rfl | rfl | rfl | rfl <;> simp only [] <;> decide
  · rw [redact_runBackfillEvent]
    intro kv hkv
    simp only [runBackfillEvent, List.mem_cons, List.not_mem_nil, or_false] at hkv
    rcases hkv with rfl | rfl | rfl | rfl <;> simp only [] <;> decide
  · rw [redact_adminTestEvent]
    intro kv hkv
    simp only [adminTestEvent, List.mem_cons, List.not_mem_nil, or_false] at hkv
    rcases hkv with rfl | rfl | rfl | rfl | rfl <;> simp only [] <;> decide

/-- Witness for claim C3 at the concrete login event shape. -/
theorem claim_C3_witness :
    ∃ parsed, parseObj (serializeObj (redact
        (loginEvent "alice" "Admin" "2025-10-27T00:00:00+00:00" "KDTW"
          "2025-10-27" true))) = some parsed ∧
      ∀ kv ∈ parsed, isSecretKey kv.1 = false :=
  claim_C3 "alice" "Admin" "2025-10-27T00:00:00+00:00" "KDTW" "2025-10-27"
    "2025-10-27T00:01:00+00:00" "KORD" true true true
    (loginEvent "alice" "Admin" "2025-10-27T00:00:00+00:00" "KDTW"
      "2025-10-27" true) (by simp)
